import Mathlib

/-!
Verification of the YTP browser client (playback/session orchestration layer).

The JavaScript sources (src/web/static/app.js, src/web/static/subtitles.js,
src/unnamed/part_002) are shallowly embedded below: module-level mutable
variables become fields of explicit state structures, every `async` function
is split into its synchronous start phase and its post-`fetch` continuation
(applied when the response arrives), and DOM mutations are abstracted to the
data they display (the rendered grid as a list of results, error text,
flags).  JavaScript numbers used for playback time are modelled as rationals;
JavaScript string trimming and prefix tests are modelled by executable
character-list functions so that concrete instances evaluate in the kernel.
-/

namespace YTP

/-- Character-list trim, both ends, used to model JavaScript `String.trim()`. -/
def jsTrimChars (cs : List Char) : List Char :=
  ((cs.dropWhile Char.isWhitespace).reverse.dropWhile Char.isWhitespace).reverse

/-- Model of JavaScript `s.trim()`. -/
def jsTrim (s : String) : String := ⟨jsTrimChars s.data⟩

/-- Boolean prefix test on character lists. -/
def jsStartsWithChars : List Char → List Char → Bool
  | [], _ => true
  | _ :: _, [] => false
  | a :: as, b :: bs => a = b && jsStartsWithChars as bs

/-- Model of JavaScript `s.startsWith(p)`. -/
def jsStartsWith (s p : String) : Bool := jsStartsWithChars p.data s.data

/-- JavaScript truthiness of a nullable string (`null`, `undefined` and `""`
are falsy). -/
def jsTruthyOptStr : Option String → Bool
  | none => false
  | some s => s ≠ ""

/-- app.js `getTargetQuality(heights, preferred)`:
exact match, else `Math.max` of the heights `≤ preferred` when that filter is
non-empty, else `Math.min` of all heights.  (`getD 0` is unreachable for the
non-empty height lists the players produce.) -/
def getTargetQuality (heights : List Nat) (preferred : Nat) : Nat :=
  if preferred ∈ heights then preferred
  else
    match (heights.filter (fun h => h ≤ preferred)).max? with
    | some m => m
    | none => (heights.min?).getD 0

/-- Effect of one invocation of the position-save logic on the stored
position. -/
inductive SaveAction where
  | nothing
  | clear
  | write (pos : ℚ)
deriving DecidableEq

/-- app.js `savePosition()`: no-op without a current video or at (falsy) time
0; clears the stored position when `dur > 0` and the time is within 30
seconds of the end or beyond 95% of the duration; stores the time when it
exceeds 5 seconds; otherwise writes nothing. -/
def savePosition (currentVideoId : Option String) (currentTime dur : ℚ) : SaveAction :=
  match currentVideoId with
  | none => SaveAction.nothing
  | some _ =>
    if currentTime = 0 then SaveAction.nothing
    else if 0 < dur ∧ (currentTime > dur - 30 ∨ currentTime / dur > 0.95) then SaveAction.clear
    else if currentTime > 5 then SaveAction.write currentTime
    else SaveAction.nothing

/-- C3: for a non-empty height list the target quality is the preference when
available, else the greatest available height not exceeding the preference,
else (all heights above the preference) the smallest available height; with
the four concrete instances named by the spec. -/
theorem getTargetQuality_spec (heights : List Nat) (preferred : Nat) (hne : heights ≠ []) :
    (preferred ∈ heights → getTargetQuality heights preferred = preferred) ∧
    ((∃ h ∈ heights, h ≤ preferred) → preferred ∉ heights →
      getTargetQuality heights preferred ∈ heights ∧
      getTargetQuality heights preferred ≤ preferred ∧
      ∀ h ∈ heights, h ≤ preferred → h ≤ getTargetQuality heights preferred) ∧
    ((∀ h ∈ heights, preferred < h) →
      getTargetQuality heights preferred ∈ heights ∧
      ∀ h ∈ heights, getTargetQuality heights preferred ≤ h) ∧
    getTargetQuality [240, 480, 720, 1080] 900 = 720 ∧
    getTargetQuality [240, 480, 720, 1080] 1080 = 1080 ∧
    getTargetQuality [240, 480, 720, 1080] 4000 = 1080 ∧
    getTargetQuality [240, 480] 100 = 240 := by
  refine ⟨?_, ?_, ?_, by decide, by decide, by decide, by decide⟩
  · intro hmem
    simp [getTargetQuality, hmem]
  · rintro ⟨h0, hh0, hle0⟩ hnot
    have hbelow : h0 ∈ heights.filter (fun h => h ≤ preferred) :=
      List.mem_filter.mpr ⟨hh0, by simpa using hle0⟩
    cases hmax : (heights.filter (fun h => h ≤ preferred)).max? with
    | none =>
      rw [List.max?_eq_none_iff] at hmax
      rw [hmax] at hbelow
      cases hbelow
    | some m =>
      have hmem : m ∈ heights.filter (fun h => h ≤ preferred) :=
        List.max?_mem (fun a b => max_choice a b) hmax
      have hub : ∀ b ∈ heights.filter (fun h => h ≤ preferred), b ≤ m :=
        (List.max?_le_iff (fun _ _ _ => max_le_iff) hmax).mp le_rfl
      have hres : getTargetQuality heights preferred = m := by
        simp [getTargetQuality, hnot, hmax]
      rw [hres]
      rcases List.mem_filter.mp hmem with ⟨hmH, hmLe⟩
      refine ⟨hmH, by simpa using hmLe, ?_⟩
      intro h hh hhle
      exact hub h (List.mem_filter.mpr ⟨hh, by simpa using hhle⟩)
  · intro hall
    have hnot : preferred ∉ heights := fun hmem => lt_irrefl _ (hall _ hmem)
    have hfil : heights.filter (fun h => h ≤ preferred) = [] := by
      apply List.filter_eq_nil_iff.mpr
      intro a ha
      simpa using not_le.mpr (hall a ha)
    cases hmin : heights.min? with
    | none =>
      rw [List.min?_eq_none_iff] at hmin
      exact absurd hmin hne
    | some m =>
      have hres : getTargetQuality heights preferred = m := by
        simp [getTargetQuality, hnot, hfil, hmin]
      rw [hres]
      refine ⟨List.min?_mem (fun a b => min_choice a b) hmin, ?_⟩
      exact (List.le_min?_iff (fun _ _ _ => le_min_iff) hmin).mp le_rfl

/-- C3 witness: the theorem applied to the spec's own concrete height list. -/
theorem getTargetQuality_spec_witness :
    ([240, 480, 720, 1080] : List Nat) ≠ [] ∧
    ((900 ∈ ([240, 480, 720, 1080] : List Nat) →
        getTargetQuality [240, 480, 720, 1080] 900 = 900) ∧
      ((∃ h ∈ ([240, 480, 720, 1080] : List Nat), h ≤ 900) →
          900 ∉ ([240, 480, 720, 1080] : List Nat) →
        getTargetQuality [240, 480, 720, 1080] 900 ∈ ([240, 480, 720, 1080] : List Nat) ∧
        getTargetQuality [240, 480, 720, 1080] 900 ≤ 900 ∧
        ∀ h ∈ ([240, 480, 720, 1080] : List Nat), h ≤ 900 →
          h ≤ getTargetQuality [240, 480, 720, 1080] 900) ∧
      ((∀ h ∈ ([240, 480, 720, 1080] : List Nat), 900 < h) →
        getTargetQuality [240, 480, 720, 1080] 900 ∈ ([240, 480, 720, 1080] : List Nat) ∧
        ∀ h ∈ ([240, 480, 720, 1080] : List Nat), getTargetQuality [240, 480, 720, 1080] 900 ≤ h) ∧
      getTargetQuality [240, 480, 720, 1080] 900 = 720 ∧
      getTargetQuality [240, 480, 720, 1080] 1080 = 1080 ∧
      getTargetQuality [240, 480, 720, 1080] 4000 = 1080 ∧
      getTargetQuality [240, 480] 100 = 240) :=
  ⟨by decide, getTargetQuality_spec [240, 480, 720, 1080] 900 (by decide)⟩

/-- C4 counterexample: with duration 100, saving at time 71 clears the stored
position (71 is within 30 seconds of the end), it does not persist 71 as the
claim states. -/
theorem savePosition_71_clears :
    savePosition (some "v") 71 100 = SaveAction.clear ∧
    savePosition (some "v") 71 100 ≠ SaveAction.write 71 := by
  have h : savePosition (some "v") 71 100 = SaveAction.clear := by
    simp only [savePosition]
    norm_num
  exact ⟨h, by rw [h]; intro hc; cases hc⟩

/-- C4 (amended): with duration 100, saving at time 96 clears the stored
position (within the near-end band), saving at time 71 also clears it (71 is
within 30 seconds of the end), saving at time 50 persists 50, and saving at
time 3 (below the 5-second minimum) writes nothing. -/
theorem savePosition_save_or_clear :
    savePosition (some "v") 96 100 = SaveAction.clear ∧
    savePosition (some "v") 71 100 = SaveAction.clear ∧
    savePosition (some "v") 50 100 = SaveAction.write 50 ∧
    savePosition (some "v") 3 100 = SaveAction.nothing := by
  refine ⟨?_, ?_, ?_, ?_⟩ <;> (simp only [savePosition]; norm_num)

/-! ### Subtitle track management (subtitles.js) -/

/-- A subtitle track as delivered in video metadata (`subtitle_tracks`). -/
structure SubTrack where
  lang : String
  label : String
deriving DecidableEq

/-- One rendered subtitle-menu entry; `lang = none` is the "Off" item. -/
structure MenuItem where
  lang : Option String
  label : String
deriving DecidableEq

/-- The active subtitle language derived from the saved preference:
`saved && saved !== 'off'` (empty string is falsy). -/
def subActiveLang (saved : Option String) : Option String :=
  match saved with
  | none => none
  | some s => if s = "" ∨ s = "off" then none else some s

/-- Stable insertion sort with a boolean "comes not after" comparator, the
model of JavaScript `Array.prototype.sort` with an ascending comparator. -/
def orderedInsertBy (le : α → α → Bool) (a : α) : List α → List α
  | [] => [a]
  | b :: bs => if le a b then a :: b :: bs else b :: orderedInsertBy le a bs

/-- Sorting loop for `orderedInsertBy`. -/
def insertionSortBy (le : α → α → Bool) : List α → List α
  | [] => []
  | a :: as => orderedInsertBy le a (insertionSortBy le as)

/-- The active language's track, if a track with exactly that language
exists (`subtitleTracks.find(t => t.lang === activeLang)`). -/
def activeTrackOf (tracks : List SubTrack) (activeLang : Option String) : List SubTrack :=
  match activeLang with
  | some a =>
    match tracks.find? (fun t => t.lang = a) with
    | some t => [t]
    | none => []
  | none => []

/-- The first English track: exact `"en"` or an `"en-"` prefix. -/
def englishTrackOf (tracks : List SubTrack) : Option SubTrack :=
  tracks.find? (fun t => t.lang = "en" || jsStartsWith t.lang "en-")

/-- subtitles.js `renderSubtitleMenu()` (the ordered item list it renders):
"Off" first, then the active language's track, then the first English track
unless its language is the active language, then the remaining tracks —
those whose language is not in the promoted language set — sorted by label.
`le` stands for the locale-aware label comparison (`localeCompare`). -/
def renderSubtitleMenu (tracks : List SubTrack) (saved : Option String)
    (le : String → String → Bool) : List MenuItem :=
  let activeLang := subActiveLang saved
  let activeItems := activeTrackOf tracks activeLang
  let enItems : List SubTrack :=
    match englishTrackOf tracks with
    | some t => if activeLang ≠ some t.lang then [t] else []
    | none => []
  let promoted : List (Option String) := activeLang :: enItems.map (fun t => some t.lang)
  let rest := insertionSortBy (fun a b => le a.label b.label)
    (tracks.filter (fun t => some t.lang ∉ promoted))
  MenuItem.mk none "Off" ::
    (activeItems ++ enItems ++ rest).map (fun t => MenuItem.mk (some t.lang) t.label)

/-- Modelled from the spec's menu-ordering policy, for the refinement claim
C7: "Off" first; then the currently active language's track if it exists;
then an English track if present and not already placed; then all remaining
(not yet placed) tracks sorted by display label. -/
def specSubtitleMenu (tracks : List SubTrack) (saved : Option String)
    (le : String → String → Bool) : List MenuItem :=
  let activePart := activeTrackOf tracks (subActiveLang saved)
  let english : List SubTrack :=
    match englishTrackOf tracks with
    | some t => if t ∈ activePart then [] else [t]
    | none => []
  let placed := activePart ++ english
  let rest := insertionSortBy (fun a b => le a.label b.label)
    (tracks.filter (fun t => t ∉ placed))
  MenuItem.mk none "Off" :: (placed ++ rest).map (fun t => MenuItem.mk (some t.lang) t.label)

/-- Lexicographic boolean comparison of character lists. -/
def charsLE : List Char → List Char → Bool
  | [], _ => true
  | _ :: _, [] => false
  | a :: as, b :: bs => if a < b then true else if b < a then false else charsLE as bs

/-- Executable string comparison, a concrete instance of the label
comparison parameter. -/
def stringLEB (a b : String) : Bool := charsLE a.data b.data

/-- Tracks sharing a language are equal when the language list has no
duplicates. -/
theorem subTrack_lang_inj {tracks : List SubTrack}
    (hnd : (tracks.map SubTrack.lang).Nodup) {t u : SubTrack}
    (ht : t ∈ tracks) (hu : u ∈ tracks) (he : t.lang = u.lang) : t = u :=
  List.inj_on_of_nodup_map hnd ht hu he

/-- For a track of the listing, membership in the promoted active slot is
equivalent to having the active language (language lists without
duplicates). -/
theorem mem_activeTrackOf_iff {tracks : List SubTrack} (al : Option String)
    (hnd : (tracks.map SubTrack.lang).Nodup) {t : SubTrack} (ht : t ∈ tracks) :
    t ∈ activeTrackOf tracks al ↔ al = some t.lang := by
  cases al with
  | none => simp [activeTrackOf]
  | some a =>
    simp only [activeTrackOf]
    cases hf : tracks.find? (fun x => x.lang = a) with
    | none =>
      rw [List.find?_eq_none] at hf
      simp only [List.not_mem_nil, false_iff]
      intro h
      have ha : t.lang = a := by
        injection h with h
        exact h.symm
      have := hf t ht
      simp [ha] at this
    | some u =>
      have hu : u ∈ tracks := List.mem_of_find?_eq_some hf
      have hlang : u.lang = a := by
        have := List.find?_some hf
        simpa using this
      constructor
      · intro h
        have : t = u := by simpa using h
        subst this
        rw [hlang]
      · intro h
        have ha : a = t.lang := by injection h
        have : t = u := subTrack_lang_inj hnd ht hu (by rw [← ha, hlang])
        simpa using this

/-- C7: the menu produced by the code equals the menu described by the
specification's ordering policy (for listings without duplicate language
codes, as delivered by the metadata endpoint), and the spec's concrete
instance: tracks en, en-GB, fr, de with active preference fr render as
Off, fr, en, then the remaining two sorted by label. -/
theorem renderSubtitleMenu_spec (tracks : List SubTrack) (saved : Option String)
    (le : String → String → Bool) (hnd : (tracks.map SubTrack.lang).Nodup) :
    renderSubtitleMenu tracks saved le = specSubtitleMenu tracks saved le ∧
    renderSubtitleMenu
        [⟨"en", "English"⟩, ⟨"en-GB", "English (UK)"⟩, ⟨"fr", "French"⟩, ⟨"de", "German"⟩]
        (some "fr") stringLEB
      = [⟨none, "Off"⟩, ⟨some "fr", "French"⟩, ⟨some "en", "English"⟩,
         ⟨some "en-GB", "English (UK)"⟩, ⟨some "de", "German"⟩] := by
  refine ⟨?_, by decide⟩
  have hiffA : ∀ t ∈ tracks,
      ((some t.lang ∉ [subActiveLang saved]) ↔
        (t ∉ activeTrackOf tracks (subActiveLang saved))) := by
    intro t ht
    apply not_congr
    rw [mem_activeTrackOf_iff (subActiveLang saved) hnd ht]
    simp only [List.mem_singleton]
    exact eq_comm
  simp only [renderSubtitleMenu, specSubtitleMenu]
  cases hE : englishTrackOf tracks with
  | none =>
    have hfc : tracks.filter
          (fun t => decide (some t.lang ∉ [subActiveLang saved]))
        = tracks.filter
          (fun t => decide (t ∉ activeTrackOf tracks (subActiveLang saved) ++ [])) := by
      apply List.filter_congr
      intro t ht
      rw [decide_eq_decide, List.append_nil]
      exact hiffA t ht
    simp only [hE, List.map_nil, List.append_nil]
    rw [List.append_nil] at hfc
    rw [hfc]
  | some et =>
    have het : et ∈ tracks := List.mem_of_find?_eq_some hE
    by_cases hal : subActiveLang saved = some et.lang
    · have hmem : et ∈ activeTrackOf tracks (subActiveLang saved) :=
        (mem_activeTrackOf_iff _ hnd het).mpr hal
      have hfc : tracks.filter
            (fun t => decide (some t.lang ∉ [subActiveLang saved]))
          = tracks.filter
            (fun t => decide (t ∉ activeTrackOf tracks (subActiveLang saved) ++ [])) := by
        apply List.filter_congr
        intro t ht
        rw [decide_eq_decide, List.append_nil]
        exact hiffA t ht
      simp only [hE, if_neg (not_not_intro hal), if_pos hmem, List.map_nil, List.append_nil]
      rw [List.append_nil] at hfc
      rw [hfc]
    · have hnmem : et ∉ activeTrackOf tracks (subActiveLang saved) := by
        intro hmem
        exact hal ((mem_activeTrackOf_iff _ hnd het).mp hmem)
      have hfc : tracks.filter
            (fun t => decide (some t.lang ∉ [subActiveLang saved, some et.lang]))
          = tracks.filter
            (fun t => decide (t ∉ activeTrackOf tracks (subActiveLang saved) ++ [et])) := by
        apply List.filter_congr
        intro t ht
        rw [decide_eq_decide]
        apply not_congr
        simp only [List.mem_cons, List.mem_singleton, List.mem_append]
        rw [mem_activeTrackOf_iff (subActiveLang saved) hnd ht]
        constructor
        · rintro (h | h | h)
          · exact Or.inl h.symm
          · have ht2 : t = et := subTrack_lang_inj hnd ht het (by injection h)
            exact Or.inr (Or.inl ht2)
          · exact absurd h (List.not_mem_nil _)
        · rintro (h | h | h)
          · exact Or.inl h.symm
          · subst h
            exact Or.inr (Or.inl rfl)
          · exact absurd h (List.not_mem_nil _)
      simp only [hE, if_pos hal, if_neg hnmem, List.map_cons, List.map_nil]
      rw [hfc]

/-- C7 witness: the theorem applied to the spec's concrete track listing. -/
theorem renderSubtitleMenu_spec_witness :
    (([⟨"en", "English"⟩, ⟨"en-GB", "English (UK)"⟩, ⟨"fr", "French"⟩,
        ⟨"de", "German"⟩] : List SubTrack).map SubTrack.lang).Nodup ∧
    (renderSubtitleMenu
        [⟨"en", "English"⟩, ⟨"en-GB", "English (UK)"⟩, ⟨"fr", "French"⟩, ⟨"de", "German"⟩]
        (some "fr") stringLEB
      = specSubtitleMenu
        [⟨"en", "English"⟩, ⟨"en-GB", "English (UK)"⟩, ⟨"fr", "French"⟩, ⟨"de", "German"⟩]
        (some "fr") stringLEB ∧
      renderSubtitleMenu
        [⟨"en", "English"⟩, ⟨"en-GB", "English (UK)"⟩, ⟨"fr", "French"⟩, ⟨"de", "German"⟩]
        (some "fr") stringLEB
      = [⟨none, "Off"⟩, ⟨some "fr", "French"⟩, ⟨some "en", "English"⟩,
         ⟨some "en-GB", "English (UK)"⟩, ⟨some "de", "German"⟩]) :=
  ⟨by decide,
   renderSubtitleMenu_spec
     [⟨"en", "English"⟩, ⟨"en-GB", "English (UK)"⟩, ⟨"fr", "French"⟩, ⟨"de", "German"⟩]
     (some "fr") stringLEB (by decide)⟩

/-- Client-side subtitle state: `failedSubtitles` (keys of the failure set),
the stored `subtitle_lang` preference, the session's current video, the
video's known subtitle tracks, attached `<track>` element languages, and the
media element's text-track languages. -/
structure SubState where
  failedSubtitles : List (String × String)
  subtitleLang : Option String
  currentVideoId : Option String
  subtitleTracks : List SubTrack
  trackEls : List String
  textTracks : List String
deriving DecidableEq

/-- The video-id half of a failure key: JavaScript template interpolation
renders a null `currentVideoId` as the string "null". -/
def jsVideoIdKey : Option String → String
  | some v => v
  | none => "null"

/-- Outcome of the subtitle activation sub-protocol. -/
inductive SubDecision where
  | showNone
  | reuse (lang : String)
  | activate (t : SubTrack)
deriving DecidableEq

/-- subtitles.js `applySubtitlePreference()`: no subtitle when the preference
is unset/empty/"off" or the (video, language) pair previously failed; reuse a
live text track matching an attached element; else activate the track found
by exact code, then by language-prefix match. -/
def applySubtitlePreference (s : SubState) : SubDecision :=
  match s.subtitleLang with
  | none => SubDecision.showNone
  | some saved =>
    if saved = "" ∨ saved = "off" then SubDecision.showNone
    else if (jsVideoIdKey s.currentVideoId, saved) ∈ s.failedSubtitles then SubDecision.showNone
    else if s.trackEls.contains saved && s.textTracks.contains saved then SubDecision.reuse saved
    else
      match s.subtitleTracks.find? (fun t => t.lang = saved) with
      | some t => SubDecision.activate t
      | none =>
        match s.subtitleTracks.find? (fun t => jsStartsWith t.lang (saved ++ "-")) with
        | some t => SubDecision.activate t
        | none => SubDecision.showNone

/-- subtitles.js `activateTrack` error callback: records the failure key and
resets the stored preference to "off" when the failing language was the
preference. -/
def trackLoadError (t : SubTrack) (s : SubState) : SubState :=
  { s with
    failedSubtitles := (jsVideoIdKey s.currentVideoId, t.lang) :: s.failedSubtitles,
    subtitleLang := if s.subtitleLang = some t.lang then some "off" else s.subtitleLang }

/-- subtitles.js `selectSubtitle(lang)`: stores the preference, removes the
track elements for "off", otherwise activates the exact-matching track
(which replaces the attached track elements). -/
def selectSubtitle (lang : Option String) (s : SubState) : SubState :=
  let s1 := { s with subtitleLang := some (match lang with | some l => l | none => "off") }
  match lang with
  | none => { s1 with trackEls := [] }
  | some l =>
    match s1.subtitleTracks.find? (fun t => t.lang = l) with
    | some t => { s1 with trackEls := [t.lang] }
    | none => s1

/-- app.js `switchAudioLanguage`, restricted to its subtitle effect: the
attached `<track>` elements are removed before the engine swap; the failure
set, preference and current video are untouched. -/
def audioSwitchSubtitleEffect (s : SubState) : SubState := { s with trackEls := [] }

/-- app.js `stopPlayer()`, restricted to its subtitle effect: clears the
track list, the failure set, the attached elements and the current video. -/
def stopPlayerSubtitleEffect (s : SubState) : SubState :=
  { s with subtitleTracks := [], failedSubtitles := [], trackEls := [], textTracks := [],
           currentVideoId := none }

/-- app.js `playVideo` + `loadSubtitleTracks`, restricted to subtitle state:
a new session tears the previous one down via `stopPlayer`, sets the current
video and installs the video's subtitle tracks. -/
def playVideoSubtitleLoad (videoId : String) (tracks : List SubTrack) (s : SubState) : SubState :=
  let s1 := stopPlayerSubtitleEffect s
  { s1 with currentVideoId := some videoId, subtitleTracks := tracks, trackEls := [] }

/-- C8 counterexample: after a load failure for (v, en) the pair is in the
failure memory, but reloading video v (`stopPlayer` runs inside `playVideo`)
clears the memory, and the activation sub-protocol with saved preference
"en" then retries the known-bad track instead of showing no subtitle. -/
theorem subtitle_failure_memory_cleared :
    (("v", "en") ∈ (trackLoadError ⟨"en", "English"⟩
        ⟨[], some "en", some "v", [⟨"en", "English"⟩], [], []⟩).failedSubtitles) ∧
    (let s3 := playVideoSubtitleLoad "v" [⟨"en", "English"⟩]
        (selectSubtitle (some "en") (trackLoadError ⟨"en", "English"⟩
          ⟨[], some "en", some "v", [⟨"en", "English"⟩], [], []⟩))
     ("v", "en") ∉ s3.failedSubtitles ∧
     s3.subtitleLang = some "en" ∧
     applySubtitlePreference s3 = SubDecision.activate ⟨"en", "English"⟩ ∧
     applySubtitlePreference s3 ≠ SubDecision.showNone) := by
  decide

/-- C8 (amended): a recorded failure key stays in the failure memory across
every subtitle operation of the same session — further failures, explicit
selection, and the engine rebuild done by an audio switch — and while it is
present the activation sub-protocol for that video and saved language shows
no subtitle; only `stopPlayer` (session teardown) clears the memory. -/
theorem subtitle_failure_memory_blocks (s : SubState) (v L : String)
    (hvid : s.currentVideoId = some v) (hpref : s.subtitleLang = some L)
    (hL1 : L ≠ "") (hL2 : L ≠ "off") (hmem : (v, L) ∈ s.failedSubtitles) :
    applySubtitlePreference s = SubDecision.showNone ∧
    applySubtitlePreference (audioSwitchSubtitleEffect s) = SubDecision.showNone ∧
    (∀ t, (v, L) ∈ (trackLoadError t s).failedSubtitles) ∧
    (∀ l, (v, L) ∈ (selectSubtitle l s).failedSubtitles) ∧
    (v, L) ∈ (audioSwitchSubtitleEffect s).failedSubtitles ∧
    (∀ t s2, (jsVideoIdKey s2.currentVideoId, t.lang) ∈ (trackLoadError t s2).failedSubtitles) := by
  have hkey : jsVideoIdKey s.currentVideoId = v := by rw [hvid]; rfl
  have happly : ∀ s' : SubState, s'.subtitleLang = some L →
      s'.currentVideoId = some v → (v, L) ∈ s'.failedSubtitles →
      applySubtitlePreference s' = SubDecision.showNone := by
    intro s' hp hv hm
    have hk : jsVideoIdKey s'.currentVideoId = v := by rw [hv]; rfl
    simp only [applySubtitlePreference, hp, hk]
    rw [if_neg (by simp [hL1, hL2]), if_pos hm]
  refine ⟨happly s hpref hvid hmem, happly _ hpref hvid hmem, ?_, ?_, hmem, ?_⟩
  · intro t
    exact List.mem_cons_of_mem _ hmem
  · intro l
    cases l with
    | none => exact hmem
    | some l' =>
      simp only [selectSubtitle]
      cases s.subtitleTracks.find? (fun t => t.lang = l') <;> exact hmem
  · intro t s2
    exact List.mem_cons_self _ _

/-- C8 amended-claim witness: the theorem applied to a concrete session state
holding a recorded failure for (v, en). -/
theorem subtitle_failure_memory_blocks_witness :
    (let s0 : SubState := ⟨[("v", "en")], some "en", some "v", [⟨"en", "English"⟩], [], []⟩
     s0.currentVideoId = some "v" ∧ s0.subtitleLang = some "en" ∧
     ("en" : String) ≠ "" ∧ ("en" : String) ≠ "off" ∧ ("v", "en") ∈ s0.failedSubtitles) ∧
    (let s0 : SubState := ⟨[("v", "en")], some "en", some "v", [⟨"en", "English"⟩], [], []⟩
     applySubtitlePreference s0 = SubDecision.showNone ∧
     applySubtitlePreference (audioSwitchSubtitleEffect s0) = SubDecision.showNone ∧
     (∀ t, ("v", "en") ∈ (trackLoadError t s0).failedSubtitles) ∧
     (∀ l, ("v", "en") ∈ (selectSubtitle l s0).failedSubtitles) ∧
     ("v", "en") ∈ (audioSwitchSubtitleEffect s0).failedSubtitles ∧
     (∀ t s2, (jsVideoIdKey s2.currentVideoId, t.lang) ∈ (trackLoadError t s2).failedSubtitles)) :=
  ⟨⟨rfl, rfl, by decide, by decide, by decide⟩,
   subtitle_failure_memory_blocks _ "v" "en" rfl rfl (by decide) (by decide) (by decide)⟩

/-! ### List browsing (src/unnamed/part_002): search, channel, load-more -/

/-- A search/listing result; only its type tag drives the view-side filters
(`_applySearchFilters`). -/
structure SResult where
  id : String
  rtype : Option String
deriving DecidableEq

/-- The three view-side filter toggles (`_searchFilters`). -/
structure Filters where
  video : Bool
  playlist : Bool
  mix : Bool
deriving DecidableEq

/-- One result's visibility under the filters: a result with no (or falsy)
type counts as a video; unknown types always pass. -/
def filterKeep (f : Filters) (r : SResult) : Bool :=
  match r.rtype with
  | none => f.video
  | some t =>
    if t = "" then f.video
    else if t = "playlist" then f.playlist
    else if t = "mix" then f.mix
    else true

/-- `_applySearchFilters(results)`. -/
def applySearchFilters (f : Filters) (rs : List SResult) : List SResult :=
  rs.filter (filterKeep f)

/-- `listViewMode`. -/
inductive LMode where
  | search
  | channel
  | channelPlaylists
deriving DecidableEq

/-- The module-level list-browsing state of part_002: the generation counter
`_listGeneration`, mode, query/channel, pagination cursor, the
`hasMoreResults` and `isLoadingMore` flags, the raw search results, the
filter toggles, and the rendered grid (result list, or an error message;
`noResultsShown` mirrors the empty-state element). -/
structure ListState where
  listGeneration : Nat
  mode : LMode
  query : String
  channelId : Option String
  cursor : Option String
  hasMore : Bool
  isLoadingMore : Bool
  searchRawResults : List SResult
  filters : Filters
  grid : List SResult
  gridError : Option String
  noResultsShown : Bool
deriving DecidableEq

/-- Outcome of the search fetch (non-ok responses throw into the catch
branch, so they are a failure here). -/
inductive SearchOutcome where
  | ok (results : List SResult) (cursor : Option String)
  | fail (msg : String)
deriving DecidableEq

/-- Outcome of the `/api/more` fetch. -/
inductive MoreOutcome where
  | ok (results : List SResult) (cursor : Option String)
  | fail (msg : String)
deriving DecidableEq

/-- `searchVideos(query)` up to its `await fetch`: no-op for a blank query,
otherwise resets the listing state, increments `_listGeneration` and
captures the new token (second component). -/
def searchVideosStart (query : String) (s : ListState) : ListState × Option Nat :=
  if jsTrim query = "" then (s, none)
  else
    ({ s with mode := LMode.search, query := query, channelId := none, cursor := none,
              hasMore := true, searchRawResults := [],
              listGeneration := s.listGeneration + 1,
              grid := [], gridError := none, noResultsShown := false },
     some (s.listGeneration + 1))

/-- `searchVideos` at the resolution of its `await fetch` (part_002:68):
`if (gen !== _listGeneration) return; // stale` — the success path's only
generation re-check.  True when the continuation survives into the
following `await response.json()` suspension; the state is untouched. -/
def searchVideosFetchArrived (gen : Nat) (s : ListState) : Bool :=
  gen = s.listGeneration

/-- `searchVideos` after its `await response.json()` resolves
(part_002:69-93): the success path stores the raw results, renders the
filtered grid and recomputes the cursor and `hasMoreResults` with no
further generation check; only the catch branch — reached by a fetch
rejection, a body-parse failure, or the non-ok HTTP status thrown at line
71 — re-checks the token (line 89) before rendering the error.
`loadChannelVideos` (check at 188, unguarded `json()` awaits at 189/199)
and `_loadChannelPlaylists` (317/318) have the same shape. -/
def searchVideosBodyParsed (gen : Nat) (resp : SearchOutcome) (s : ListState) : ListState :=
  match resp with
  | SearchOutcome.ok results cursor =>
    if results.isEmpty then { s with noResultsShown := true, hasMore := false }
    else
      { s with searchRawResults := results,
               grid := applySearchFilters s.filters results,
               gridError := none,
               noResultsShown := (applySearchFilters s.filters results).isEmpty,
               cursor := cursor,
               hasMore := jsTruthyOptStr cursor }
  | SearchOutcome.fail msg =>
    if gen ≠ s.listGeneration then s
    else { s with grid := [], gridError := some msg, hasMore := false }

/-- `loadMore()` up to its `await fetch`: no-op while a load is in flight,
when `hasMoreResults` is cleared, or without a (truthy) cursor; otherwise it
sets `isLoadingMore` and captures — without incrementing — the current
generation token. -/
def loadMoreStart (s : ListState) : ListState × Option Nat :=
  if s.isLoadingMore || !s.hasMore || !jsTruthyOptStr s.cursor then (s, none)
  else ({ s with isLoadingMore := true }, some s.listGeneration)

/-- `loadMore` after its fetch resolves: a stale response only drops the
in-flight flag; a good page is appended (filtered in search mode, raw
results accumulated), the cursor replaced, and `hasMoreResults` recomputed
as cursor-truthy AND page non-empty; an error stops pagination.  Every path
clears `isLoadingMore`. -/
def loadMoreResponse (gen : Nat) (resp : MoreOutcome) (s : ListState) : ListState :=
  if gen ≠ s.listGeneration then { s with isLoadingMore := false }
  else match resp with
  | MoreOutcome.fail _ => { s with hasMore := false, isLoadingMore := false }
  | MoreOutcome.ok results cursor =>
    let s1 :=
      if s.mode = LMode.search then
        { s with searchRawResults := s.searchRawResults ++ results,
                 grid := s.grid ++ applySearchFilters s.filters results }
      else { s with grid := s.grid ++ results }
    { s1 with cursor := cursor,
              hasMore := jsTruthyOptStr cursor && !results.isEmpty,
              isLoadingMore := false }

/-- C1 failing input: the program violates the stale-discard guarantee.
Search A ("cats", token 1) has its fetch resolve while its token is still
current, so the success path's only generation check (part_002:68) passes;
during A's `response.json()` suspension, search B ("dogs") bumps the
generation and B's parsed response renders; A's body then finishes parsing
and its success path — which never re-checks the token — overwrites B's
rendered results with A's stale ones, although A's captured token no
longer matches the live generation.  This contradicts "every async
response whose captured generation token differs from the current token is
silently discarded, and only the most recent generation's response mutates
visible state". -/
theorem stale_search_body_applied :
    (let s0 : ListState :=
      ⟨0, LMode.search, "", none, none, true, false, [], ⟨true, true, true⟩, [], none, false⟩
     let sA := (searchVideosStart "cats" s0).1
     let sB := (searchVideosStart "dogs" sA).1
     let sB2 := searchVideosBodyParsed 2 (SearchOutcome.ok [⟨"dogs1", none⟩] none) sB
     (searchVideosStart "cats" s0).2 = some 1 ∧
     searchVideosFetchArrived 1 sA = true ∧
     (searchVideosStart "dogs" sA).2 = some 2 ∧
     searchVideosFetchArrived 2 sB = true ∧
     sB2.grid = [⟨"dogs1", none⟩] ∧
     (1 : Nat) ≠ sB2.listGeneration ∧
     (searchVideosBodyParsed 1 (SearchOutcome.ok [⟨"cats1", none⟩] none) sB2).grid
       = [⟨"cats1", none⟩]) := by
  decide

/-- C5: a non-stale load-more page sets `hasMoreResults` exactly when the
cursor is non-null and the page is non-empty; in particular a non-null
cursor with zero items clears the flag, after which `loadMore` issues no
further request.  (The `!!cursor` truthiness test in the source also treats
an empty-string cursor as null, hence the hypothesis that the pagination
token is not the empty string.) -/
theorem loadMore_exhaustion (s : ListState) (gen : Nat) (results : List SResult)
    (cursor : Option String) (hgen : gen = s.listGeneration) (hcur : cursor ≠ some "") :
    ((loadMoreResponse gen (MoreOutcome.ok results cursor) s).hasMore = true ↔
      (cursor ≠ none ∧ results ≠ [])) ∧
    (results = [] →
      (loadMoreResponse gen (MoreOutcome.ok results cursor) s).hasMore = false ∧
      (loadMoreStart (loadMoreResponse gen (MoreOutcome.ok results cursor) s)).2 = none) := by
  have hmore : (loadMoreResponse gen (MoreOutcome.ok results cursor) s).hasMore
      = (jsTruthyOptStr cursor && !results.isEmpty) := by
    simp only [loadMoreResponse, if_neg (not_not_intro hgen)]
  have htruthy : (jsTruthyOptStr cursor = true) ↔ cursor ≠ none := by
    cases cursor with
    | none => simp [jsTruthyOptStr]
    | some c =>
      have hc : c ≠ "" := by
        intro h
        exact hcur (by rw [h])
      simp [jsTruthyOptStr, hc]
  constructor
  · rw [hmore]
    simp only [Bool.and_eq_true, Bool.not_eq_true']
    rw [htruthy]
    simp [List.isEmpty_iff]
  · intro hres
    have h0 : (loadMoreResponse gen (MoreOutcome.ok results cursor) s).hasMore = false := by
      rw [hmore, hres]
      simp
    refine ⟨h0, ?_⟩
    simp only [loadMoreStart, h0]
    rw [if_pos (by simp)]

/-- C5 witness: a page with a live cursor but no items exhausts the
listing. -/
theorem loadMore_exhaustion_witness :
    ((1 : Nat) = (⟨1, LMode.search, "q", none, some "cur", true, true, [],
        ⟨true, true, true⟩, [], none, false⟩ : ListState).listGeneration ∧
      (some "next" : Option String) ≠ some "") ∧
    (((loadMoreResponse 1 (MoreOutcome.ok [] (some "next"))
        ⟨1, LMode.search, "q", none, some "cur", true, true, [],
          ⟨true, true, true⟩, [], none, false⟩).hasMore = true ↔
      ((some "next" : Option String) ≠ none ∧ ([] : List SResult) ≠ [])) ∧
    (([] : List SResult) = [] →
      (loadMoreResponse 1 (MoreOutcome.ok [] (some "next"))
        ⟨1, LMode.search, "q", none, some "cur", true, true, [],
          ⟨true, true, true⟩, [], none, false⟩).hasMore = false ∧
      (loadMoreStart (loadMoreResponse 1 (MoreOutcome.ok [] (some "next"))
        ⟨1, LMode.search, "q", none, some "cur", true, true, [],
          ⟨true, true, true⟩, [], none, false⟩)).2 = none)) :=
  ⟨⟨rfl, by decide⟩,
   loadMore_exhaustion
     ⟨1, LMode.search, "q", none, some "cur", true, true, [], ⟨true, true, true⟩, [],
       none, false⟩
     1 [] (some "next") rfl (by decide)⟩

/-- C10: every completion path of `loadMore` — stale discard, error, applied
page — leaves `isLoadingMore` cleared, so a finished call never blocks a
later one. -/
theorem loadMore_resets_inflight (gen : Nat) (resp : MoreOutcome) (s : ListState) :
    (loadMoreResponse gen resp s).isLoadingMore = false := by
  simp only [loadMoreResponse]
  split
  · rfl
  · cases resp with
    | fail m => rfl
    | ok rs c => rfl

/-! ### Queue mode (src/unnamed/part_002) -/

/-- A queue entry as returned by the playlist-contents endpoint. -/
structure QVideo where
  id : String
  title : String
  channel : String
deriving DecidableEq

/-- The `_queue` object: title, ordered videos, current index, source
playlist. -/
structure Queue where
  title : String
  videos : List QVideo
  currentIndex : Nat
  playlistId : String
deriving DecidableEq

/-- Queue-relevant client state: the queue (or null), the session's current
video id, the log of videos the queue asked the player to start, and the
terminal "Finished" display flag. -/
structure QState where
  queue : Option Queue
  currentVideoId : Option String
  playRequests : List String
  queueFinishedShown : Bool
deriving DecidableEq

/-- Outcome of the playlist-contents fetch. -/
inductive QueueOutcome where
  | ok (title : Option String) (videos : List QVideo)
  | fail
deriving DecidableEq

/-- `data.title || 'Queue'`: a missing or empty (falsy) title falls back. -/
def jsQueueTitle (title : Option String) : String :=
  match title with
  | some t => if t = "" then "Queue" else t
  | none => "Queue"

/-- `_loadQueue(videoId, playlistId)` after its fetch resolves: discarded
when the session moved to a different video; an empty video list changes
nothing; otherwise the queue is created with `currentIndex` at the anchor
video's position (`findIndex`), corrected to 0 when the anchor is absent. -/
def loadQueueResponse (videoId playlistId : String) (resp : QueueOutcome) (s : QState) : QState :=
  match resp with
  | QueueOutcome.fail => s
  | QueueOutcome.ok title vids =>
    if s.currentVideoId ≠ some videoId then s
    else if vids.isEmpty then s
    else
      { s with queue := some ⟨jsQueueTitle title, vids,
          (vids.findIdx? (fun v => v.id = videoId)).getD 0, playlistId⟩ }

/-- `_playQueueItem(index)`: bounds-checked; re-points the session at the
indexed video and updates `currentIndex`. -/
def playQueueItem (index : Nat) (s : QState) : QState :=
  match s.queue with
  | none => s
  | some q =>
    if h : index < q.videos.length then
      { s with queue := some { q with currentIndex := index },
               currentVideoId := some (q.videos.get ⟨index, h⟩).id,
               playRequests := s.playRequests ++ [(q.videos.get ⟨index, h⟩).id] }
    else s

/-- `_advanceQueue()`: advances only when the session's current video id
equals the id of the queue entry at `currentIndex` (a missing entry —
JavaScript `undefined` — never equals the current id); then either plays
the next entry or shows the terminal "Finished" state. -/
def advanceQueue (s : QState) : QState :=
  match s.queue with
  | none => s
  | some q =>
    match q.videos[q.currentIndex]? with
    | none => s
    | some v =>
      if s.currentVideoId = some v.id then
        if q.currentIndex + 1 < q.videos.length then playQueueItem (q.currentIndex + 1) s
        else { s with queueFinishedShown := true }
      else s

/-- The `ended` listener: `if (_queue) _advanceQueue()`. -/
def onMediaEnded (s : QState) : QState :=
  match s.queue with
  | some _ => advanceQueue s
  | none => s

/-- `_closeQueue()`. -/
def closeQueue (s : QState) : QState := { s with queue := none }

/-- The queue invariant: either no queue, or `currentIndex` indexes into
`videos`. -/
def queueInv (s : QState) : Prop :=
  ∀ q, s.queue = some q → q.currentIndex < q.videos.length

/-- A successful `findIdx?` yields an in-range index whose entry satisfies
the predicate. -/
theorem findIdx?_some_spec {α : Type} (p : α → Bool) :
    ∀ (l : List α) (i : Nat), l.findIdx? p = some i →
      i < l.length ∧ ∃ v, l[i]? = some v ∧ p v = true := by
  intro l
  induction l with
  | nil =>
    intro i h
    simp [List.findIdx?] at h
  | cons x xs ih =>
    intro i h
    rw [List.findIdx?_cons] at h
    by_cases hx : p x = true
    · rw [if_pos hx] at h
      injection h with h
      subst h
      exact ⟨Nat.succ_pos _, x, by simp, hx⟩
    · rw [if_neg hx, List.findIdx?_succ] at h
      cases hxs : xs.findIdx? p with
      | none =>
        rw [hxs] at h
        cases h
      | some j =>
        rw [hxs] at h
        have hij : j + 1 = i := by simpa using h
        subst hij
        obtain ⟨hj, v, hv, hp⟩ := ih j hxs
        exact ⟨Nat.succ_lt_succ hj, v, by simpa using hv, hp⟩

/-- `playQueueItem` preserves the queue invariant. -/
theorem playQueueItem_inv (i : Nat) (s : QState) (hinv : queueInv s) :
    queueInv (playQueueItem i s) := by
  intro q2 hq2
  cases hq : s.queue with
  | none =>
    simp only [playQueueItem, hq] at hq2
    exact Option.noConfusion hq2
  | some q =>
    simp only [playQueueItem, hq] at hq2
    by_cases h : i < q.videos.length
    · rw [dif_pos h] at hq2
      have hqq : q2 = { q with currentIndex := i } := by
        injection hq2 with h2
        exact h2.symm
      subst hqq
      exact h
    · rw [dif_neg h, hq] at hq2
      injection hq2 with h2
      exact h2 ▸ hinv q hq

/-- C6: while a queue is active, a media-ended event whose session video id
differs from the queue entry at `currentIndex` changes nothing (no index
advance, no play request); and any run of `onMediaEnded` that changes the
index requires the session video id to equal that entry's id. -/
theorem queue_ended_guard (s : QState) (q : Queue) (hq : s.queue = some q) :
    (s.currentVideoId ≠ (q.videos[q.currentIndex]?).map QVideo.id → onMediaEnded s = s) ∧
    (∀ q2, (onMediaEnded s).queue = some q2 → q2.currentIndex ≠ q.currentIndex →
      ∃ v, q.videos[q.currentIndex]? = some v ∧ s.currentVideoId = some v.id) := by
  constructor
  · intro hne
    cases hv : q.videos[q.currentIndex]? with
    | none => simp only [onMediaEnded, hq, advanceQueue, hv]
    | some v =>
      have hne2 : ¬ s.currentVideoId = some v.id := by
        rw [hv] at hne
        simpa using hne
      simp only [onMediaEnded, hq, advanceQueue, hv, if_neg hne2]
  · intro q2 hq2 hidx
    cases hv : q.videos[q.currentIndex]? with
    | none =>
      simp only [onMediaEnded, hq, advanceQueue, hv] at hq2
      injection hq2 with h2
      exact absurd (congrArg Queue.currentIndex h2).symm hidx
    | some v =>
      by_cases hcv : s.currentVideoId = some v.id
      · exact ⟨v, rfl, hcv⟩
      · simp only [onMediaEnded, hq, advanceQueue, hv, if_neg hcv] at hq2
        injection hq2 with h2
        exact absurd (congrArg Queue.currentIndex h2).symm hidx

/-- C6 witness: the user has navigated to a different video; the ended
event does not advance the queue. -/
theorem queue_ended_guard_witness :
    ((⟨some ⟨"T", [⟨"a", "t", "c"⟩, ⟨"b", "u", "c"⟩], 0, "pl"⟩, some "other", [], false⟩ :
        QState).queue = some ⟨"T", [⟨"a", "t", "c"⟩, ⟨"b", "u", "c"⟩], 0, "pl"⟩) ∧
    (((⟨some ⟨"T", [⟨"a", "t", "c"⟩, ⟨"b", "u", "c"⟩], 0, "pl"⟩, some "other", [], false⟩ :
          QState).currentVideoId
        ≠ ((⟨"T", [⟨"a", "t", "c"⟩, ⟨"b", "u", "c"⟩], 0, "pl"⟩ : Queue).videos[
            (⟨"T", [⟨"a", "t", "c"⟩, ⟨"b", "u", "c"⟩], 0, "pl"⟩ : Queue).currentIndex]?).map
            QVideo.id →
      onMediaEnded
          ⟨some ⟨"T", [⟨"a", "t", "c"⟩, ⟨"b", "u", "c"⟩], 0, "pl"⟩, some "other", [], false⟩
        = ⟨some ⟨"T", [⟨"a", "t", "c"⟩, ⟨"b", "u", "c"⟩], 0, "pl"⟩, some "other", [], false⟩) ∧
    (∀ q2, (onMediaEnded
          ⟨some ⟨"T", [⟨"a", "t", "c"⟩, ⟨"b", "u", "c"⟩], 0, "pl"⟩, some "other", [],
            false⟩).queue = some q2 →
      q2.currentIndex ≠ (⟨"T", [⟨"a", "t", "c"⟩, ⟨"b", "u", "c"⟩], 0, "pl"⟩ : Queue).currentIndex →
      ∃ v, (⟨"T", [⟨"a", "t", "c"⟩, ⟨"b", "u", "c"⟩], 0, "pl"⟩ : Queue).videos[
          (⟨"T", [⟨"a", "t", "c"⟩, ⟨"b", "u", "c"⟩], 0, "pl"⟩ : Queue).currentIndex]? = some v ∧
        (⟨some ⟨"T", [⟨"a", "t", "c"⟩, ⟨"b", "u", "c"⟩], 0, "pl"⟩, some "other", [], false⟩ :
          QState).currentVideoId = some v.id)) :=
  ⟨rfl,
   queue_ended_guard
     ⟨some ⟨"T", [⟨"a", "t", "c"⟩, ⟨"b", "u", "c"⟩], 0, "pl"⟩, some "other", [], false⟩
     ⟨"T", [⟨"a", "t", "c"⟩, ⟨"b", "u", "c"⟩], 0, "pl"⟩ rfl⟩

/-- C9: every queue operation — queue creation from a fetched playlist,
manual jump, end-of-media advance, close — preserves the invariant that the
queue is null or `currentIndex` indexes into `videos`; and creation places
`currentIndex` at the anchor video's position, or 0 when the anchor is not
in the returned list. -/
theorem queue_index_invariant (s : QState) (hinv : queueInv s) :
    (∀ vid pid resp, queueInv (loadQueueResponse vid pid resp s)) ∧
    (∀ i, queueInv (playQueueItem i s)) ∧
    queueInv (onMediaEnded s) ∧
    queueInv (closeQueue s) ∧
    (∀ vid pid t vids, s.currentVideoId = some vid → vids ≠ [] →
      ∃ q, (loadQueueResponse vid pid (QueueOutcome.ok t vids) s).queue = some q ∧
        q.videos = vids ∧
        q.currentIndex = (vids.findIdx? (fun v => v.id = vid)).getD 0 ∧
        ((∃ v, vids[q.currentIndex]? = some v ∧ v.id = vid) ∨
          ((∀ v ∈ vids, v.id ≠ vid) ∧ q.currentIndex = 0))) := by
  refine ⟨?_, fun i => playQueueItem_inv i s hinv, ?_, ?_, ?_⟩
  · intro vid pid resp q2 hq2
    cases resp with
    | fail => exact hinv q2 hq2
    | ok title vids =>
      simp only [loadQueueResponse] at hq2
      by_cases hcv : s.currentVideoId ≠ some vid
      · rw [if_pos hcv] at hq2
        exact hinv q2 hq2
      · rw [if_neg hcv] at hq2
        by_cases hemp : vids.isEmpty
        · rw [if_pos hemp] at hq2
          exact hinv q2 hq2
        · rw [if_neg hemp] at hq2
          injection hq2 with h2
          subst h2
          cases hidx : vids.findIdx? (fun v => v.id = vid) with
          | none =>
            simp only [hidx, Option.getD_none]
            rw [List.isEmpty_iff] at hemp
            exact List.length_pos.mpr hemp
          | some i =>
            simp only [hidx, Option.getD_some]
            exact (findIdx?_some_spec _ vids i hidx).1
  · intro q2 hq2
    cases hq : s.queue with
    | none =>
      simp only [onMediaEnded, hq] at hq2
      exact Option.noConfusion hq2
    | some q =>
      cases hv : q.videos[q.currentIndex]? with
      | none =>
        simp only [onMediaEnded, hq, advanceQueue, hv] at hq2
        injection hq2 with h2
        exact h2 ▸ hinv q hq
      | some v =>
        by_cases hcv : s.currentVideoId = some v.id
        · by_cases hnext : q.currentIndex + 1 < q.videos.length
          · have hrun : onMediaEnded s = playQueueItem (q.currentIndex + 1) s := by
              simp only [onMediaEnded, hq, advanceQueue, hv, if_pos hcv, if_pos hnext]
            rw [hrun] at hq2
            exact playQueueItem_inv (q.currentIndex + 1) s hinv q2 hq2
          · simp only [onMediaEnded, hq, advanceQueue, hv, if_pos hcv, if_neg hnext] at hq2
            injection hq2 with h2
            exact h2 ▸ hinv q hq
        · simp only [onMediaEnded, hq, advanceQueue, hv, if_neg hcv] at hq2
          injection hq2 with h2
          exact h2 ▸ hinv q hq
  · intro q2 hq2
    cases hq2
  · intro vid pid t vids hcv hvids
    have hemp : ¬ vids.isEmpty := by
      rw [List.isEmpty_iff]
      exact hvids
    refine ⟨⟨jsQueueTitle t, vids, (vids.findIdx? (fun v => v.id = vid)).getD 0, pid⟩, ?_,
      rfl, rfl, ?_⟩
    · simp only [loadQueueResponse]
      rw [if_neg (not_not_intro hcv), if_neg hemp]
    · cases hidx : vids.findIdx? (fun v => v.id = vid) with
      | none =>
        refine Or.inr ⟨?_, by simp [hidx]⟩
        intro v hv
        have := List.findIdx?_eq_none_iff.mp hidx v hv
        simpa using this
      | some i =>
        obtain ⟨hlen, v, hv, hp⟩ := findIdx?_some_spec _ vids i hidx
        refine Or.inl ⟨v, ?_, by simpa using hp⟩
        simpa [hidx] using hv

/-- C9 witness: the theorem applied to a queue-less state (the invariant
holds vacuously). -/
theorem queue_index_invariant_witness :
    queueInv ⟨none, some "vid", [], false⟩ ∧
    ((∀ vid pid resp, queueInv (loadQueueResponse vid pid resp ⟨none, some "vid", [], false⟩)) ∧
      (∀ i, queueInv (playQueueItem i ⟨none, some "vid", [], false⟩)) ∧
      queueInv (onMediaEnded ⟨none, some "vid", [], false⟩) ∧
      queueInv (closeQueue ⟨none, some "vid", [], false⟩) ∧
      (∀ vid pid t vids,
        (⟨none, some "vid", [], false⟩ : QState).currentVideoId = some vid → vids ≠ [] →
        ∃ q, (loadQueueResponse vid pid (QueueOutcome.ok t vids)
            ⟨none, some "vid", [], false⟩).queue = some q ∧
          q.videos = vids ∧
          q.currentIndex = (vids.findIdx? (fun v => v.id = vid)).getD 0 ∧
          ((∃ v, vids[q.currentIndex]? = some v ∧ v.id = vid) ∨
            ((∀ v ∈ vids, v.id ≠ vid) ∧ q.currentIndex = 0)))) :=
  ⟨(fun _ h => nomatch h),
   queue_index_invariant ⟨none, some "vid", [], false⟩ (fun _ h => nomatch h)⟩

/-! ### Playback session: audio switch and engine-ready resume (app.js) -/

/-- `currentPlayerType`. -/
inductive PKind where
  | dash
  | hls
deriving DecidableEq

/-- One entry of `videoQualities`. -/
structure QualityEntry where
  height : Nat
  bandwidth : Nat
  qualityIndex : Nat
deriving DecidableEq

/-- `pendingSeek`: transport time and play intent captured by an audio
switch. -/
structure PendingSeek where
  time : ℚ
  play : Bool
deriving DecidableEq

/-- Player-session state of app.js relevant to the audio switch: current
video, media transport time and paused flag, audio language, live engine
kind, the pending seek, the quality list, active height and the stored
quality preference, and the attached subtitle `<track>` languages. -/
structure PSession where
  currentVideoId : Option String
  currentTime : ℚ
  paused : Bool
  currentAudioLang : Option String
  currentPlayerType : Option PKind
  pendingSeek : Option PendingSeek
  videoQualities : List QualityEntry
  currentActiveHeight : Nat
  preferredQuality : Nat
  trackEls : List String
deriving DecidableEq

/-- Externally visible actions the session issues to the engine, the media
element, and the two restore paths. -/
inductive PAct where
  | setQuality (idx : Nat)
  | seekTo (t : ℚ)
  | play
  | applySubPref
  | restorePos (videoId : String)
deriving DecidableEq

/-- app.js `switchAudioLanguage(lang)`: no-op without a current video;
otherwise captures `{time, play}` into `pendingSeek`, removes the subtitle
track elements, records the language, and rebuilds the engine — DASH for
"original", HLS otherwise (`startDashPlayer` / `startHlsPlayer` set
`currentPlayerType` on entry). -/
def switchAudioLanguage (lang : String) (s : PSession) : PSession :=
  match s.currentVideoId with
  | none => s
  | some _ =>
    { s with pendingSeek := some ⟨s.currentTime, !s.paused⟩,
             trackEls := [],
             currentAudioLang := some lang,
             currentPlayerType := some (if lang = "original" then PKind.dash else PKind.hls) }

/-- The DASH `STREAM_INITIALIZED` handler: rebuild the quality list (empty
list: return), select the target quality, then either consume `pendingSeek`
(seek, conditional play, subtitle preference re-application) or run the
independent `restorePosition` path. -/
def onDashStreamReady (videoId : String) (qualities : List QualityEntry) (s : PSession) :
    PSession × List PAct :=
  let s0 := { s with videoQualities := qualities }
  if qualities.isEmpty then (s0, [])
  else
    let targetHeight := getTargetQuality (qualities.map (fun q => q.height)) s.preferredQuality
    let found := qualities.find? (fun q => q.height = targetHeight)
    let s1 := match found with
      | some _ => { s0 with currentActiveHeight := targetHeight }
      | none => s0
    let acts1 := match found with
      | some e => [PAct.setQuality e.qualityIndex]
      | none => []
    match s1.pendingSeek with
    | some ps =>
      ({ s1 with pendingSeek := none, currentTime := ps.time,
                 paused := if ps.play then false else s1.paused },
       acts1 ++ [PAct.seekTo ps.time] ++ (if ps.play then [PAct.play] else [])
         ++ [PAct.applySubPref])
    | none => (s1, acts1 ++ [PAct.restorePos videoId])

/-- The HLS `MANIFEST_PARSED` handler: identical shape; its non-pending
branch additionally starts playback before the restore path. -/
def onHlsManifestReady (videoId : String) (qualities : List QualityEntry) (s : PSession) :
    PSession × List PAct :=
  let s0 := { s with videoQualities := qualities }
  if qualities.isEmpty then (s0, [])
  else
    let targetHeight := getTargetQuality (qualities.map (fun q => q.height)) s.preferredQuality
    let found := qualities.find? (fun q => q.height = targetHeight)
    let s1 := match found with
      | some _ => { s0 with currentActiveHeight := targetHeight }
      | none => s0
    let acts1 := match found with
      | some e => [PAct.setQuality e.qualityIndex]
      | none => []
    match s1.pendingSeek with
    | some ps =>
      ({ s1 with pendingSeek := none, currentTime := ps.time,
                 paused := if ps.play then false else s1.paused },
       acts1 ++ [PAct.seekTo ps.time] ++ (if ps.play then [PAct.play] else [])
         ++ [PAct.applySubPref])
    | none =>
      ({ s1 with paused := false }, acts1 ++ [PAct.play, PAct.restorePos videoId])

/-- C2: switching the audio language at transport time T in play state P
stores `pendingSeek = {T, P}` and rebuilds DASH for "original", HLS
otherwise; the rebuilt engine's first ready callback (for a playable,
non-empty quality list) seeks to T, issues play exactly when P was playing,
re-applies the subtitle preference, clears `pendingSeek`, and never invokes
the independent `restorePosition` path. -/
theorem audio_switch_resume (s : PSession) (lang v : String) (qualities : List QualityEntry)
    (hv : s.currentVideoId = some v) (hq : ¬ qualities.isEmpty) :
    (switchAudioLanguage lang s).pendingSeek = some ⟨s.currentTime, !s.paused⟩ ∧
    (switchAudioLanguage lang s).currentPlayerType
      = some (if lang = "original" then PKind.dash else PKind.hls) ∧
    (let r := if lang = "original"
        then onDashStreamReady v qualities (switchAudioLanguage lang s)
        else onHlsManifestReady v qualities (switchAudioLanguage lang s)
     PAct.seekTo s.currentTime ∈ r.2 ∧
     ((PAct.play ∈ r.2) ↔ s.paused = false) ∧
     PAct.applySubPref ∈ r.2 ∧
     r.1.pendingSeek = none ∧
     ∀ w, PAct.restorePos w ∉ r.2) := by
  have hsw : switchAudioLanguage lang s
      = { s with pendingSeek := some ⟨s.currentTime, !s.paused⟩,
                 trackEls := [],
                 currentAudioLang := some lang,
                 currentPlayerType :=
                   some (if lang = "original" then PKind.dash else PKind.hls) } := by
    simp only [switchAudioLanguage, hv]
  refine ⟨by rw [hsw], by rw [hsw], ?_⟩
  have hready : ∀ ready : PSession × List PAct,
      (ready = if lang = "original"
        then onDashStreamReady v qualities (switchAudioLanguage lang s)
        else onHlsManifestReady v qualities (switchAudioLanguage lang s)) →
      PAct.seekTo s.currentTime ∈ ready.2 ∧
      ((PAct.play ∈ ready.2) ↔ s.paused = false) ∧
      PAct.applySubPref ∈ ready.2 ∧
      ready.1.pendingSeek = none ∧
      ∀ w, PAct.restorePos w ∉ ready.2 := by
    intro ready hr
    have hacts : ready.2
        = (match qualities.find? (fun q => q.height
              = getTargetQuality (qualities.map (fun q => q.height)) s.preferredQuality) with
            | some e => [PAct.setQuality e.qualityIndex]
            | none => ([] : List PAct))
          ++ [PAct.seekTo s.currentTime] ++ (if !s.paused then [PAct.play] else [])
          ++ [PAct.applySubPref] ∧
        ready.1.pendingSeek = none := by
      by_cases hl : lang = "original"
      · rw [if_pos hl] at hr
        rw [hr]
        simp only [onDashStreamReady, hsw, if_neg hq]
        cases hfound : qualities.find? (fun q => q.height
            = getTargetQuality (qualities.map (fun q => q.height)) s.preferredQuality) with
        | none => simp [hfound]
        | some e => simp [hfound]
      · rw [if_neg hl] at hr
        rw [hr]
        simp only [onHlsManifestReady, hsw, if_neg hq]
        cases hfound : qualities.find? (fun q => q.height
            = getTargetQuality (qualities.map (fun q => q.height)) s.preferredQuality) with
        | none => simp [hfound]
        | some e => simp [hfound]
    obtain ⟨ha, hps⟩ := hacts
    refine ⟨?_, ?_, ?_, hps, ?_⟩
    · rw [ha]
      cases hfound : qualities.find? (fun q => q.height
          = getTargetQuality (qualities.map (fun q => q.height)) s.preferredQuality) <;>
        simp [hfound]
    · rw [ha]
      cases hfound : qualities.find? (fun q => q.height
          = getTargetQuality (qualities.map (fun q => q.height)) s.preferredQuality) <;>
        cases hp : s.paused <;> simp [hfound, hp]
    · rw [ha]
      cases hfound : qualities.find? (fun q => q.height
          = getTargetQuality (qualities.map (fun q => q.height)) s.preferredQuality) <;>
        simp [hfound]
    · intro w
      rw [ha]
      cases hfound : qualities.find? (fun q => q.height
          = getTargetQuality (qualities.map (fun q => q.height)) s.preferredQuality) <;>
        cases hp : s.paused <;> simp [hfound, hp]
  exact hready _ rfl

/-- C2 witness: switching to French audio at time 7 while playing. -/
theorem audio_switch_resume_witness :
    ((⟨some "v", 7, false, some "original", some PKind.dash, none, [⟨1080, 0, 0⟩], 1080, 1080,
        []⟩ : PSession).currentVideoId = some "v" ∧
      ¬ ([⟨720, 0, 0⟩, ⟨1080, 0, 1⟩] : List QualityEntry).isEmpty) ∧
    ((switchAudioLanguage "fr"
        ⟨some "v", 7, false, some "original", some PKind.dash, none, [⟨1080, 0, 0⟩], 1080, 1080,
          []⟩).pendingSeek
      = some ⟨(⟨some "v", 7, false, some "original", some PKind.dash, none, [⟨1080, 0, 0⟩], 1080,
          1080, []⟩ : PSession).currentTime,
          !(⟨some "v", 7, false, some "original", some PKind.dash, none, [⟨1080, 0, 0⟩], 1080,
            1080, []⟩ : PSession).paused⟩ ∧
    (switchAudioLanguage "fr"
        ⟨some "v", 7, false, some "original", some PKind.dash, none, [⟨1080, 0, 0⟩], 1080, 1080,
          []⟩).currentPlayerType
      = some (if "fr" = "original" then PKind.dash else PKind.hls) ∧
    (let r := if "fr" = "original"
        then onDashStreamReady "v" [⟨720, 0, 0⟩, ⟨1080, 0, 1⟩]
          (switchAudioLanguage "fr"
            ⟨some "v", 7, false, some "original", some PKind.dash, none, [⟨1080, 0, 0⟩], 1080,
              1080, []⟩)
        else onHlsManifestReady "v" [⟨720, 0, 0⟩, ⟨1080, 0, 1⟩]
          (switchAudioLanguage "fr"
            ⟨some "v", 7, false, some "original", some PKind.dash, none, [⟨1080, 0, 0⟩], 1080,
              1080, []⟩)
     PAct.seekTo (⟨some "v", 7, false, some "original", some PKind.dash, none, [⟨1080, 0, 0⟩],
        1080, 1080, []⟩ : PSession).currentTime ∈ r.2 ∧
     ((PAct.play ∈ r.2) ↔ (⟨some "v", 7, false, some "original", some PKind.dash, none,
        [⟨1080, 0, 0⟩], 1080, 1080, []⟩ : PSession).paused = false) ∧
     PAct.applySubPref ∈ r.2 ∧
     r.1.pendingSeek = none ∧
     ∀ w, PAct.restorePos w ∉ r.2)) :=
  ⟨⟨rfl, by decide⟩,
   audio_switch_resume
     ⟨some "v", 7, false, some "original", some PKind.dash, none, [⟨1080, 0, 0⟩], 1080, 1080, []⟩
     "fr" "v" [⟨720, 0, 0⟩, ⟨1080, 0, 1⟩] rfl (by decide)⟩

end YTP
